import Mathlib

/-!
Shallow embedding of `src/src/pages/dashboard/csms/users.tsx`, the user
admin view of the ev-csms-project repository.

The component is event-driven React state management over a REST backend.
We embed it as a pure state machine: the component state is a record, each
handler / network callback is a function `State → ... → State × List Effect`
where `Effect` records the observable actions (HTTP requests issued,
console logging, router navigation).  A network operation is modelled as a
function of the outcome the backend would return: the request it issues is
emitted as an effect, the `try`/`catch` branches become a match on the
outcome.  The nested `fetchUsers()` refresh calls are fire-and-forget in
the source, so they appear as an emitted GET request effect (their own
state update happens when that later event is processed).
-/

namespace UserAdmin

/-- The `User` record from `@/types/user`, as used by the component:
`{ id, fullName, mobileNumber, email, roles }` with `id` a JS number
(integer) and the rest strings. -/
structure User where
  id : Int
  fullName : String
  mobileNumber : String
  email : String
  roles : String
deriving DecidableEq, Repr

/-- The possible values of `sortOrder.field` (`keyof User`). -/
inductive SortField
  | id | fullName | mobileNumber | email | roles
deriving DecidableEq, Repr

/-- The sort direction, `'asc' | 'desc'`. -/
inductive SortDir
  | asc | desc
deriving DecidableEq, Repr

/-- The `sortOrder` state: `{ field, order }`. -/
structure SortOrder where
  field : SortField
  order : SortDir
deriving DecidableEq, Repr

/-- A JSON body sent to the backend.  Serialising a JS `User` object
includes every own field, so the `id` slot is an `Option` only to be able
to express presence or absence of the `id` key in the body. -/
structure Payload where
  id : Option Int
  fullName : String
  mobileNumber : String
  email : String
  roles : String
deriving DecidableEq, Repr

/-- JSON serialisation of a `User` value: all five fields are included. -/
def userToPayload (u : User) : Payload :=
  { id := some u.id, fullName := u.fullName, mobileNumber := u.mobileNumber,
    email := u.email, roles := u.roles }

/-- HTTP method of a request issued through the axios instance. -/
inductive Method
  | get | post | put | delete
deriving DecidableEq, Repr

/-- An HTTP request issued through the axios instance. -/
structure Request where
  method : Method
  url : String
  body : Option Payload
deriving DecidableEq, Repr

/-- Observable effects of the component: HTTP requests, `console.error`
logging, and `router.push` navigation. -/
inductive Effect
  | request (req : Request)
  | log (msg : String)
  | navigate (route : String)
deriving DecidableEq, Repr

/-- The component's `useState` state. -/
structure State where
  users : List User
  newUser : User
  editUser : Option User
  showForm : Bool
  searchQuery : String
  sortOrder : SortOrder
deriving DecidableEq, Repr

/-- The draft placeholder `{ id: 0, fullName: '', mobileNumber: '',
email: '', roles: '' }` used to initialise and reset `newUser`. -/
def emptyUser : User :=
  { id := 0, fullName := "", mobileNumber := "", email := "", roles := "" }

/-- The initial component state from the `useState` initialisers. -/
def initState : State :=
  { users := [], newUser := emptyUser, editUser := none, showForm := false,
    searchQuery := "", sortOrder := { field := .fullName, order := .asc } }

/-- The relative URL `apiUrl = '/users'`. -/
def apiUrl : String := "/users"

/-- Result of the backend call behind `api.get(apiUrl)`: either the data
array, or a rejection whose `error.response?.status` is the given
optional status code. -/
inductive FetchOutcome
  | ok (data : List User)
  | err (status : Option Nat)

/-- Result of a mutation call (`post`/`put`/`delete`): success or a
rejection with an optional status code (ignored by the handlers). -/
inductive Outcome
  | ok
  | err (status : Option Nat)

/-- `fetchUsers`: issues `GET /users`; on success replaces `users` with
the response data; on error logs, and if the status is 401 additionally
navigates to `/login`.  All other state is untouched. -/
def fetchUsers (st : State) : FetchOutcome → State × List Effect
  | .ok data =>
      ({ st with users := data }, [.request ⟨.get, apiUrl, none⟩])
  | .err status =>
      (st, [.request ⟨.get, apiUrl, none⟩, .log "Error fetching users:"] ++
        (if status = some 401 then [.navigate "/login"] else []))

/-- `createUser`: issues `POST /users` with body `newUser`; on success
resets `newUser` to the placeholder, fires a refresh fetch, and closes the
form; on error only logs. -/
def createUser (st : State) : Outcome → State × List Effect
  | .ok =>
      ({ st with newUser := emptyUser, showForm := false },
        [.request ⟨.post, apiUrl, some (userToPayload st.newUser)⟩,
         .request ⟨.get, apiUrl, none⟩])
  | .err _ =>
      (st, [.request ⟨.post, apiUrl, some (userToPayload st.newUser)⟩,
        .log "Error creating user:"])

/-- `updateUser`: when `editUser` is non-null, issues
`PUT /users/{editUser.id}` with body `editUser`; on success clears
`editUser`, fires a refresh fetch, and closes the form; on error only
logs.  When `editUser` is null nothing at all happens. -/
def updateUser (st : State) : Outcome → State × List Effect
  | out =>
    match st.editUser with
    | none => (st, [])
    | some e =>
      match out with
      | .ok =>
          ({ st with editUser := none, showForm := false },
            [.request ⟨.put, apiUrl ++ "/" ++ toString e.id, some (userToPayload e)⟩,
             .request ⟨.get, apiUrl, none⟩])
      | .err _ =>
          (st, [.request ⟨.put, apiUrl ++ "/" ++ toString e.id, some (userToPayload e)⟩,
            .log "Error updating user:"])

/-- `deleteUser(id)`: issues `DELETE /users/{id}`; on success fires a
refresh fetch; on error only logs.  Component state is never changed
directly. -/
def deleteUser (st : State) (id : Int) : Outcome → State × List Effect
  | .ok =>
      (st, [.request ⟨.delete, apiUrl ++ "/" ++ toString id, none⟩,
        .request ⟨.get, apiUrl, none⟩])
  | .err _ =>
      (st, [.request ⟨.delete, apiUrl ++ "/" ++ toString id, none⟩,
        .log "Error deleting user:"])

/-- `handleEditClick(user)`: selects the user for editing and opens the
form. -/
def handleEditClick (st : State) (u : User) : State × List Effect :=
  ({ st with editUser := some u, showForm := true }, [])

/-- `handleAddClick`: clears the edit selection and opens the form. -/
def handleAddClick (st : State) : State × List Effect :=
  ({ st with editUser := none, showForm := true }, [])

/-- `handleCancelClick`: clears the edit selection, resets the draft and
closes the form. -/
def handleCancelClick (st : State) : State × List Effect :=
  ({ st with editUser := none, newUser := emptyUser, showForm := false }, [])

/-- `handleSearchChange`: stores the search input value. -/
def handleSearchChange (st : State) (q : String) : State × List Effect :=
  ({ st with searchQuery := q }, [])

/-- `handleSortChange`: stores the parsed `field-order` dropdown value. -/
def handleSortChange (st : State) (f : SortField) (d : SortDir) :
    State × List Effect :=
  ({ st with sortOrder := { field := f, order := d } }, [])

/-- The form's Full Name `onChange`: updates `editUser` when editing,
otherwise the `newUser` draft, spreading the previous record. -/
def handleFormFullName (st : State) (v : String) : State × List Effect :=
  match st.editUser with
  | some e => ({ st with editUser := some { e with fullName := v } }, [])
  | none => ({ st with newUser := { st.newUser with fullName := v } }, [])

/-- The form's Email `onChange`. -/
def handleFormEmail (st : State) (v : String) : State × List Effect :=
  match st.editUser with
  | some e => ({ st with editUser := some { e with email := v } }, [])
  | none => ({ st with newUser := { st.newUser with email := v } }, [])

/-- The form's Mobile Number `onChange`. -/
def handleFormMobile (st : State) (v : String) : State × List Effect :=
  match st.editUser with
  | some e => ({ st with editUser := some { e with mobileNumber := v } }, [])
  | none => ({ st with newUser := { st.newUser with mobileNumber := v } }, [])

/-- `needle.isPrefixOf`-based model of JS `String.prototype.includes`,
over the character lists: the needle occurs contiguously somewhere in the
haystack. -/
def listIncludes (needle : List Char) : List Char → Bool
  | [] => needle.isEmpty
  | c :: rest => needle.isPrefixOf (c :: rest) || listIncludes needle rest

/-- JS `hay.includes(needle)`. -/
def strIncludes (hay needle : String) : Bool :=
  listIncludes needle.data hay.data

/-- JS `String.prototype.toLowerCase`, modelled as per-character ASCII
case folding (`Char.toLower` mapped over the character list). -/
def strToLower (s : String) : String :=
  String.mk (s.data.map Char.toLower)

/-- The filter predicate of `filteredUser`:
`fullName.toLowerCase().includes(query) || email.toLowerCase().includes(query)`
with `query = searchQuery.toLowerCase()`. -/
def matchesQuery (searchQuery : String) (user : User) : Bool :=
  let query := strToLower searchQuery
  strIncludes (strToLower user.fullName) query ||
    strIncludes (strToLower user.email) query

/-- Three-way lexicographic comparison of character lists. -/
def cmpCharList : List Char → List Char → Ordering
  | [], [] => .eq
  | [], _ :: _ => .lt
  | _ :: _, [] => .gt
  | a :: as, b :: bs =>
      if a < b then .lt else if b < a then .gt else cmpCharList as bs

/-- Modelled from the spec: `String.prototype.localeCompare`, an external
browser builtin ("locale-aware string comparison"); modelled as code-point
lexicographic comparison returning the sign as -1/0/1. -/
def localeCompare (a b : String) : Int :=
  match cmpCharList a.data b.data with
  | .lt => -1
  | .eq => 0
  | .gt => 1

/-- The comparator passed to `.sort`: string fields via `localeCompare`
(swapped for descending), the number field `id` via subtraction (swapped
for descending). -/
def userComparator (s : SortOrder) (a b : User) : Int :=
  match s.field with
  | .fullName =>
      match s.order with
      | .asc => localeCompare a.fullName b.fullName
      | .desc => localeCompare b.fullName a.fullName
  | .email =>
      match s.order with
      | .asc => localeCompare a.email b.email
      | .desc => localeCompare b.email a.email
  | .mobileNumber =>
      match s.order with
      | .asc => localeCompare a.mobileNumber b.mobileNumber
      | .desc => localeCompare b.mobileNumber a.mobileNumber
  | .roles =>
      match s.order with
      | .asc => localeCompare a.roles b.roles
      | .desc => localeCompare b.roles a.roles
  | .id =>
      match s.order with
      | .asc => a.id - b.id
      | .desc => b.id - a.id

/-- The ordering that the comparator induces: `a` may precede `b` exactly
when the comparator is non-positive. -/
def userLe (s : SortOrder) (a b : User) : Prop :=
  userComparator s a b ≤ 0

instance (s : SortOrder) : DecidableRel (userLe s) :=
  fun a b => inferInstanceAs (Decidable (userComparator s a b ≤ 0))

/-- The derived `filteredUser` list: filter by the search query, then sort
with the comparator.  JS `Array.prototype.sort` is a stable sort (the
algorithm itself is unspecified), so it is modelled by the stable
`List.insertionSort`. -/
def filteredUser (users : List User) (searchQuery : String) (s : SortOrder) :
    List User :=
  (users.filter (matchesQuery searchQuery)).insertionSort (userLe s)

/-- Every event the component reacts to: network-call completions (with
their outcome) and UI interactions. -/
inductive Event
  | fetch (out : FetchOutcome)
  | create (out : Outcome)
  | update (out : Outcome)
  | deleteU (id : Int) (out : Outcome)
  | editClick (u : User)
  | addClick
  | cancelClick
  | searchChange (q : String)
  | sortChange (f : SortField) (d : SortDir)
  | formFullName (v : String)
  | formEmail (v : String)
  | formMobile (v : String)

/-- One step of the component: dispatch an event to its handler. -/
def step (st : State) : Event → State × List Effect
  | .fetch out => fetchUsers st out
  | .create out => createUser st out
  | .update out => updateUser st out
  | .deleteU id out => deleteUser st id out
  | .editClick u => handleEditClick st u
  | .addClick => handleAddClick st
  | .cancelClick => handleCancelClick st
  | .searchChange q => handleSearchChange st q
  | .sortChange f d => handleSortChange st f d
  | .formFullName v => handleFormFullName st v
  | .formEmail v => handleFormEmail st v
  | .formMobile v => handleFormMobile st v

/-- Spec-side notion for C1: `q` is a case-insensitive substring of `s`. -/
def ciSubstr (q s : String) : Bool :=
  strIncludes (strToLower s) (strToLower q)

/-- The string stored in a chosen field of a user (the `id` case renders
the number; it is excluded by the claims, which only sort on `fullName`
and `email`). -/
def fieldStr : SortField → User → String
  | .id, u => toString u.id
  | .fullName, u => u.fullName
  | .mobileNumber, u => u.mobileNumber
  | .email, u => u.email
  | .roles, u => u.roles

/-- Spec-side notion for C2, ascending locale order on a chosen field. -/
def fieldLeAsc (f : SortField) (a b : User) : Prop :=
  localeCompare (fieldStr f a) (fieldStr f b) ≤ 0

/-- Spec-side notion for C2: "sorted by that field in that direction". -/
def fieldLe (s : SortOrder) (a b : User) : Prop :=
  match s.order with
  | .asc => fieldLeAsc s.field a b
  | .desc => fieldLeAsc s.field b a

theorem cmpCharList_eq_iff : ∀ {a b : List Char}, cmpCharList a b = .eq ↔ a = b := by
  intro a
  induction a with
  | nil => intro b; cases b <;> simp [cmpCharList]
  | cons x xs ih =>
    intro b
    cases b with
    | nil => simp [cmpCharList]
    | cons y ys =>
      simp only [cmpCharList]
      split
      · next hxy => simp [ne_of_lt hxy]
      · split
        · next hyx => simp [(ne_of_lt hyx).symm]
        · next h1 h2 =>
          have hxy : x = y := le_antisymm (not_lt.mp h2) (not_lt.mp h1)
          subst hxy
          simp [ih]

theorem cmpCharList_swap : ∀ (a b : List Char),
    cmpCharList b a = (cmpCharList a b).swap := by
  intro a
  induction a with
  | nil => intro b; cases b <;> simp [cmpCharList, Ordering.swap]
  | cons x xs ih =>
    intro b
    cases b with
    | nil => simp [cmpCharList, Ordering.swap]
    | cons y ys =>
      simp only [cmpCharList]
      rcases lt_trichotomy x y with h | h | h
      · simp [h, asymm h, Ordering.swap]
      · subst h
        simp only [lt_irrefl, if_false]
        exact ih ys
      · simp [h, asymm h, Ordering.swap]

theorem cmpCharList_lt_trans : ∀ {a b c : List Char},
    cmpCharList a b = .lt → cmpCharList b c = .lt → cmpCharList a c = .lt := by
  intro a
  induction a with
  | nil =>
    intro b c hab hbc
    cases b with
    | nil => simp [cmpCharList] at hab
    | cons y ys =>
      cases c with
      | nil => simp [cmpCharList] at hbc
      | cons z zs => simp [cmpCharList]
  | cons x xs ih =>
    intro b c hab hbc
    cases b with
    | nil => simp [cmpCharList] at hab
    | cons y ys =>
      cases c with
      | nil => simp [cmpCharList] at hbc
      | cons z zs =>
        simp only [cmpCharList] at hab hbc ⊢
        rcases lt_trichotomy x y with h1 | h1 | h1
        · rcases lt_trichotomy y z with h2 | h2 | h2
          · simp [lt_trans h1 h2]
          · subst h2; simp [h1]
          · rw [if_neg (asymm h2), if_pos h2] at hbc
            simp at hbc
        · subst h1
          rw [if_neg (lt_irrefl x), if_neg (lt_irrefl x)] at hab
          rcases lt_trichotomy x z with h2 | h2 | h2
          · simp [h2]
          · subst h2
            rw [if_neg (lt_irrefl x), if_neg (lt_irrefl x)] at hbc ⊢
            exact ih hab hbc
          · rw [if_neg (asymm h2), if_pos h2] at hbc
            simp at hbc
        · rw [if_neg (asymm h1), if_pos h1] at hab
          simp at hab

theorem cmpCharList_le_trans {a b c : List Char}
    (h1 : cmpCharList a b ≠ .gt) (h2 : cmpCharList b c ≠ .gt) :
    cmpCharList a c ≠ .gt := by
  cases hab : cmpCharList a b with
  | gt => exact absurd hab h1
  | eq =>
    rw [cmpCharList_eq_iff] at hab
    subst hab
    exact h2
  | lt =>
    cases hbc : cmpCharList b c with
    | gt => exact absurd hbc h2
    | eq =>
      rw [cmpCharList_eq_iff] at hbc
      subst hbc
      simp [hab]
    | lt =>
      have h := cmpCharList_lt_trans hab hbc
      simp [h]

theorem cmpCharList_le_total (a b : List Char) :
    cmpCharList a b ≠ .gt ∨ cmpCharList b a ≠ .gt := by
  cases h : cmpCharList a b with
  | lt => left; simp
  | eq => left; simp
  | gt =>
    right
    rw [cmpCharList_swap a b, h]
    simp [Ordering.swap]

theorem localeCompare_nonpos_iff {a b : String} :
    localeCompare a b ≤ 0 ↔ cmpCharList a.data b.data ≠ .gt := by
  cases h : cmpCharList a.data b.data <;> simp [localeCompare, h]

theorem locale_nonpos_trans {a b c : String}
    (h1 : localeCompare a b ≤ 0) (h2 : localeCompare b c ≤ 0) :
    localeCompare a c ≤ 0 := by
  rw [localeCompare_nonpos_iff] at h1 h2 ⊢
  exact cmpCharList_le_trans h1 h2

theorem locale_nonpos_total (a b : String) :
    localeCompare a b ≤ 0 ∨ localeCompare b a ≤ 0 := by
  rw [localeCompare_nonpos_iff, localeCompare_nonpos_iff]
  exact cmpCharList_le_total _ _

instance (s : SortOrder) : IsTrans User (userLe s) where
  trans := by
    obtain ⟨f, d⟩ := s
    intro a b c
    cases f <;> cases d <;> simp only [userLe, userComparator] <;> intro h1 h2 <;>
      first
        | omega
        | exact locale_nonpos_trans h1 h2
        | exact locale_nonpos_trans h2 h1

instance (s : SortOrder) : IsTotal User (userLe s) where
  total := by
    obtain ⟨f, d⟩ := s
    intro a b
    cases f <;> cases d <;> simp only [userLe, userComparator] <;>
      first
        | omega
        | exact locale_nonpos_total _ _

/-- A concrete user used to instantiate hypotheses at concrete inputs. -/
def aliceUser : User :=
  { id := 1, fullName := "Alice", mobileNumber := "111",
    email := "alice@example.com", roles := "admin" }

/-- The user `{fullName: "Bob"}` of the sorting example. -/
def bobOnly : User := { emptyUser with fullName := "Bob" }

/-- The user `{fullName: "Alice"}` of the sorting example. -/
def aliceOnly : User := { emptyUser with fullName := "Alice" }

/-- C1: for every list of users, every query Q and sort setting, a user of
the list appears in the derived `filteredUser` list iff Q is a
case-insensitive substring of that user's `fullName` or a case-insensitive
substring of that user's `email`. -/
theorem mem_filteredUser_iff (users : List User) (q : String) (s : SortOrder)
    (u : User) (hu : u ∈ users) :
    u ∈ filteredUser users q s ↔
      (ciSubstr q u.fullName = true ∨ ciSubstr q u.email = true) := by
  unfold filteredUser
  rw [List.mem_insertionSort, List.mem_filter]
  simp [matchesQuery, ciSubstr, hu]

theorem mem_filteredUser_iff_witness :
    aliceUser ∈ filteredUser [aliceUser] "LIC" ⟨.fullName, .asc⟩ ↔
      (ciSubstr "LIC" aliceUser.fullName = true ∨
        ciSubstr "LIC" aliceUser.email = true) :=
  mem_filteredUser_iff [aliceUser] "LIC" ⟨.fullName, .asc⟩ aliceUser (by simp)

theorem userLe_iff_fieldLe {f : SortField} (hf : f = .fullName ∨ f = .email)
    (d : SortDir) (a b : User) :
    userLe ⟨f, d⟩ a b ↔ fieldLe ⟨f, d⟩ a b := by
  rcases hf with h | h <;> subst h <;> cases d <;>
    simp [userLe, userComparator, fieldLe, fieldLeAsc, fieldStr]

/-- C2: for every list of users and every sort setting on `fullName` or
`email`, the derived `filteredUser` list is sorted by that field in that
direction (under the locale comparison model), it is a permutation of the
filtered input, the sort is stable (any pair already in order in the
filtered input remains a sublist of the output), and in particular
`[{fullName:"Bob"}, {fullName:"Alice"}]` sorted by `fullName` ascending
yields `[Alice, Bob]`. -/
theorem filteredUser_sorted (users : List User) (q : String)
    (f : SortField) (d : SortDir) (hf : f = .fullName ∨ f = .email) :
    List.Sorted (fieldLe ⟨f, d⟩) (filteredUser users q ⟨f, d⟩)
    ∧ (filteredUser users q ⟨f, d⟩).Perm (users.filter (matchesQuery q))
    ∧ (∀ a b : User, fieldLe ⟨f, d⟩ a b →
        [a, b].Sublist (users.filter (matchesQuery q)) →
        [a, b].Sublist (filteredUser users q ⟨f, d⟩))
    ∧ filteredUser [bobOnly, aliceOnly] "" ⟨.fullName, .asc⟩ =
        [aliceOnly, bobOnly] := by
  refine ⟨?_, List.perm_insertionSort _ _, ?_, by decide⟩
  · have h := List.sorted_insertionSort (userLe ⟨f, d⟩)
      (users.filter (matchesQuery q))
    exact List.Pairwise.imp (fun hab => (userLe_iff_fieldLe hf d _ _).mp hab) h
  · intro a b hab hsub
    exact List.pair_sublist_insertionSort
      ((userLe_iff_fieldLe hf d a b).mpr hab) hsub

theorem filteredUser_sorted_witness :
    (SortField.fullName = SortField.fullName ∨
      SortField.fullName = SortField.email)
    ∧ (List.Sorted (fieldLe ⟨.fullName, .asc⟩)
        (filteredUser [bobOnly, aliceOnly] "" ⟨.fullName, .asc⟩)
      ∧ (filteredUser [bobOnly, aliceOnly] "" ⟨.fullName, .asc⟩).Perm
          ([bobOnly, aliceOnly].filter (matchesQuery ""))
      ∧ (∀ a b : User, fieldLe ⟨.fullName, .asc⟩ a b →
          [a, b].Sublist ([bobOnly, aliceOnly].filter (matchesQuery "")) →
          [a, b].Sublist (filteredUser [bobOnly, aliceOnly] "" ⟨.fullName, .asc⟩))
      ∧ filteredUser [bobOnly, aliceOnly] "" ⟨.fullName, .asc⟩ =
          [aliceOnly, bobOnly]) :=
  ⟨Or.inl rfl,
    filteredUser_sorted [bobOnly, aliceOnly] "" .fullName .asc (Or.inl rfl)⟩

/-- Selects the navigation effects. -/
def isNavigate : Effect → Bool
  | .navigate _ => true
  | _ => false

/-- C3: every network operation catches errors, logs them, and leaves the
component state unchanged; the navigation effects of a failed list-fetch
are exactly `/login` when the status is 401 and none otherwise; mutation
errors never navigate. -/
theorem network_error_handling (st : State) (status : Option Nat) (k : Int) :
    (fetchUsers st (.err status)).1 = st
    ∧ Effect.log "Error fetching users:" ∈ (fetchUsers st (.err status)).2
    ∧ ((fetchUsers st (.err status)).2.filter isNavigate =
        if status = some 401 then [Effect.navigate "/login"] else [])
    ∧ (createUser st (.err status)).1 = st
    ∧ Effect.log "Error creating user:" ∈ (createUser st (.err status)).2
    ∧ (createUser st (.err status)).2.filter isNavigate = []
    ∧ (updateUser st (.err status)).1 = st
    ∧ (Effect.log "Error updating user:" ∈ (updateUser st (.err status)).2 ↔
        st.editUser.isSome = true)
    ∧ (updateUser st (.err status)).2.filter isNavigate = []
    ∧ (deleteUser st k (.err status)).1 = st
    ∧ Effect.log "Error deleting user:" ∈ (deleteUser st k (.err status)).2
    ∧ (deleteUser st k (.err status)).2.filter isNavigate = [] := by
  refine ⟨rfl, by simp [fetchUsers], ?_, rfl, by simp [createUser],
    by simp [createUser, isNavigate], ?_, ?_, ?_, rfl, by simp [deleteUser],
    by simp [deleteUser, isNavigate]⟩
  · by_cases h : status = some 401 <;> simp [fetchUsers, h, isNavigate]
  · cases h : st.editUser <;> simp [updateUser, h]
  · cases h : st.editUser <;> simp [updateUser, h]
  · cases h : st.editUser <;> simp [updateUser, h, isNavigate]

/-- C4 counterexample: already at the initial state, the create operation
issues `POST /users` whose body is the serialisation of the full draft
record, and that body does contain an `id` field (the placeholder 0) —
the body is not "without an id field". -/
theorem createUser_body_has_id :
    Effect.request ⟨.post, "/users", some (userToPayload emptyUser)⟩ ∈
      (createUser initState .ok).2
    ∧ (userToPayload emptyUser).id = some 0
    ∧ (userToPayload emptyUser).id ≠ none := by decide

/-- C4 (amended): for every draft and either outcome, the create
operation submits the draft record, including its placeholder id field,
as the request body of `POST /users`. -/
theorem createUser_posts_draft (st : State) (out : Outcome) :
    Effect.request ⟨.post, apiUrl, some (userToPayload st.newUser)⟩ ∈
      (createUser st out).2
    ∧ (userToPayload st.newUser).id = some st.newUser.id := by
  cases out <;> simp [createUser, userToPayload]

/-- C5: invoking create issues `POST /users` carrying the draft as
payload followed by a refresh `GET /users`; on success the draft is reset
to the empty placeholder, the form is closed, and every other state field
is unchanged. -/
theorem createUser_success (st : State) :
    (createUser st .ok).2 =
      [.request ⟨.post, apiUrl, some (userToPayload st.newUser)⟩,
       .request ⟨.get, apiUrl, none⟩]
    ∧ (createUser st .ok).1.newUser = emptyUser
    ∧ (createUser st .ok).1.showForm = false
    ∧ (createUser st .ok).1.users = st.users
    ∧ (createUser st .ok).1.editUser = st.editUser
    ∧ (createUser st .ok).1.searchQuery = st.searchQuery
    ∧ (createUser st .ok).1.sortOrder = st.sortOrder :=
  ⟨rfl, rfl, rfl, rfl, rfl, rfl, rfl⟩

/-- C6: with a non-null edit record `e`, update on success issues
`PUT /users/{e.id}` with the edited record as body followed by a refresh
`GET /users`, clears the edit state, closes the form, and leaves every
other state field unchanged. -/
theorem updateUser_success (st : State) (e : User)
    (h : st.editUser = some e) :
    (updateUser st .ok).2 =
      [.request ⟨.put, apiUrl ++ "/" ++ toString e.id, some (userToPayload e)⟩,
       .request ⟨.get, apiUrl, none⟩]
    ∧ (updateUser st .ok).1.editUser = none
    ∧ (updateUser st .ok).1.showForm = false
    ∧ (updateUser st .ok).1.users = st.users
    ∧ (updateUser st .ok).1.newUser = st.newUser
    ∧ (updateUser st .ok).1.searchQuery = st.searchQuery
    ∧ (updateUser st .ok).1.sortOrder = st.sortOrder := by
  simp [updateUser, h]

/-- A state in which `aliceUser` is selected for editing. -/
def editingState : State :=
  { initState with editUser := some aliceUser, showForm := true }

theorem updateUser_success_witness :
    (updateUser editingState .ok).2 =
      [.request ⟨.put, apiUrl ++ "/" ++ toString aliceUser.id,
          some (userToPayload aliceUser)⟩,
       .request ⟨.get, apiUrl, none⟩]
    ∧ (updateUser editingState .ok).1.editUser = none
    ∧ (updateUser editingState .ok).1.showForm = false
    ∧ (updateUser editingState .ok).1.users = editingState.users
    ∧ (updateUser editingState .ok).1.newUser = editingState.newUser
    ∧ (updateUser editingState .ok).1.searchQuery = editingState.searchQuery
    ∧ (updateUser editingState .ok).1.sortOrder = editingState.sortOrder :=
  updateUser_success editingState aliceUser rfl

/-- C7: delete(k) issues `DELETE /users/k` followed by a refresh
`GET /users` and leaves the state unchanged; in particular delete(5)
targets the URL `/users/5`. -/
theorem deleteUser_success (st : State) (k : Int) :
    (deleteUser st k .ok).2 =
      [.request ⟨.delete, apiUrl ++ "/" ++ toString k, none⟩,
       .request ⟨.get, apiUrl, none⟩]
    ∧ (deleteUser st k .ok).1 = st
    ∧ (deleteUser initState 5 .ok).2 =
      [.request ⟨.delete, "/users/5", none⟩,
       .request ⟨.get, apiUrl, none⟩] :=
  ⟨rfl, rfl, by decide⟩

/-- C8: cancel clears the edit state, resets the draft to the placeholder
record (whose id is 0), closes the form, issues no effect (in particular
no network request), and leaves users, searchQuery and sortOrder
unchanged. -/
theorem handleCancelClick_spec (st : State) :
    (handleCancelClick st).1.editUser = none
    ∧ (handleCancelClick st).1.newUser = emptyUser
    ∧ emptyUser.id = 0
    ∧ (handleCancelClick st).1.showForm = false
    ∧ (handleCancelClick st).2 = []
    ∧ (handleCancelClick st).1.users = st.users
    ∧ (handleCancelClick st).1.searchQuery = st.searchQuery
    ∧ (handleCancelClick st).1.sortOrder = st.sortOrder :=
  ⟨rfl, rfl, rfl, rfl, rfl, rfl, rfl, rfl⟩

/-- C9: the draft id invariant: `newUser.id = 0` holds in the initial
state and is preserved by every event the component processes — form
edits spread the previous draft, and a successful create resets the draft
to the placeholder with id 0. -/
theorem newUser_id_invariant :
    initState.newUser.id = 0
    ∧ ∀ (st : State) (e : Event), st.newUser.id = 0 →
        ((step st e).1).newUser.id = 0 := by
  refine ⟨rfl, ?_⟩
  intro st e h
  cases e with
  | fetch out => cases out <;> simp [step, fetchUsers, h]
  | create out => cases out <;> simp [step, createUser, h, emptyUser]
  | update out =>
      cases he : st.editUser <;> cases out <;> simp [step, updateUser, he, h]
  | deleteU id out => cases out <;> simp [step, deleteUser, h]
  | editClick u => simpa [step, handleEditClick] using h
  | addClick => simpa [step, handleAddClick] using h
  | cancelClick => simp [step, handleCancelClick, emptyUser]
  | searchChange q => simpa [step, handleSearchChange] using h
  | sortChange f d => simpa [step, handleSortChange] using h
  | formFullName v =>
      cases he : st.editUser <;> simp [step, handleFormFullName, he, h]
  | formEmail v =>
      cases he : st.editUser <;> simp [step, handleFormEmail, he, h]
  | formMobile v =>
      cases he : st.editUser <;> simp [step, handleFormMobile, he, h]

theorem newUser_id_invariant_witness :
    initState.newUser.id = 0
    ∧ ((step initState (.formFullName "Jane")).1).newUser.id = 0 :=
  ⟨rfl, newUser_id_invariant.2 initState (.formFullName "Jane") rfl⟩

/-- C10: when no edit record is selected, invoking update is a complete
no-op: it issues no effect (in particular no network request) and leaves
the whole state unchanged. -/
theorem updateUser_noop (st : State) (out : Outcome)
    (h : st.editUser = none) :
    updateUser st out = (st, []) := by
  simp [updateUser, h]

theorem updateUser_noop_witness :
    initState.editUser = none ∧ updateUser initState .ok = (initState, []) :=
  ⟨rfl, updateUser_noop initState .ok rfl⟩

end UserAdmin
